import Mathlib

/-!
Verification of the core resolution/search/caching logic of `app.py`
(an anime catalog server: index-backed search, episode pagination,
iframe-cache dispatch, listing-cache TTL, episode-title cleaning).

The Python code is shallowly embedded:

* Python `float` values are modelled by `PyFloat`, an unreduced fraction
  with an always-positive denominator, so that all arithmetic is
  structural and kernel-computable; `PyFloat.toRat` reflects it into `ℚ`
  for order reasoning.
* Python dictionaries holding JSON records become Lean structures;
  a field that the code reads with `dict.get` (and that may be absent)
  becomes an `Option` field.
* Python's stable `list.sort(key=...)` is modelled by the stable
  insertion sort `List.insertionSort` over the corresponding key order.
* Character classes of the regular expressions used by the code are
  modelled over their ASCII meaning.
-/

/-! ## PyFloat: kernel-computable fractions modelling Python floats -/

/-- A Python numeric value `num / (pden + 1)`.  Storing the denominator
minus one keeps the denominator positive by construction, with no proof
fields, so every operation reduces inside the kernel. -/
structure PyFloat where
  num : Int
  pden : Nat
deriving DecidableEq

/-- Denominator of a `PyFloat`, as a (positive) integer. -/
def PyFloat.den (x : PyFloat) : Int := (x.pden : Int) + 1

/-- Embed an integer. -/
def PyFloat.ofInt (n : Int) : PyFloat := ⟨n, 0⟩

/-- Addition of fractions, without reduction. -/
def pyAdd (a b : PyFloat) : PyFloat :=
  ⟨a.num * b.den + b.num * a.den, a.pden * b.pden + a.pden + b.pden⟩

/-- Multiplication of fractions, without reduction. -/
def pyMul (a b : PyFloat) : PyFloat :=
  ⟨a.num * b.num, a.pden * b.pden + a.pden + b.pden⟩

/-- Negation. -/
def pyNeg (a : PyFloat) : PyFloat := ⟨-a.num, a.pden⟩

/-- Subtraction. -/
def pySub (a b : PyFloat) : PyFloat := pyAdd a (pyNeg b)

/-- Value-level order (Python `<=` on numbers), by cross-multiplication. -/
def pyLe (a b : PyFloat) : Prop := a.num * b.den ≤ b.num * a.den

/-- Value-level strict order (Python `<` on numbers). -/
def pyLt (a b : PyFloat) : Prop := a.num * b.den < b.num * a.den

/-- Value-level equality (Python `==` on numbers). -/
def pyEquiv (a b : PyFloat) : Prop := a.num * b.den = b.num * a.den

instance (a b : PyFloat) : Decidable (pyLe a b) := by unfold pyLe; infer_instance
instance (a b : PyFloat) : Decidable (pyLt a b) := by unfold pyLt; infer_instance
instance (a b : PyFloat) : Decidable (pyEquiv a b) := by unfold pyEquiv; infer_instance

/-- Truncation toward zero, modelling Python `int(x)` on a float. -/
def PyFloat.trunc (x : PyFloat) : Int := Int.tdiv x.num x.den

/-- The rational value of a `PyFloat`. -/
def PyFloat.toRat (x : PyFloat) : Rat := (x.num : Rat) / (x.den : Rat)

theorem PyFloat.den_pos (x : PyFloat) : (0 : Int) < x.den := by
  unfold PyFloat.den; positivity

theorem PyFloat.den_cast_pos (x : PyFloat) : (0 : Rat) < (x.den : Rat) := by
  exact_mod_cast x.den_pos

theorem pyLe_iff (a b : PyFloat) : pyLe a b ↔ a.toRat ≤ b.toRat := by
  unfold pyLe PyFloat.toRat
  rw [div_le_div_iff₀ a.den_cast_pos b.den_cast_pos]
  constructor
  · intro h; exact_mod_cast h
  · intro h; exact_mod_cast h

theorem pyLt_iff (a b : PyFloat) : pyLt a b ↔ a.toRat < b.toRat := by
  unfold pyLt PyFloat.toRat
  rw [div_lt_div_iff₀ a.den_cast_pos b.den_cast_pos]
  constructor
  · intro h; exact_mod_cast h
  · intro h; exact_mod_cast h

theorem pyEquiv_iff (a b : PyFloat) : pyEquiv a b ↔ a.toRat = b.toRat := by
  unfold pyEquiv PyFloat.toRat
  rw [div_eq_div_iff (ne_of_gt a.den_cast_pos) (ne_of_gt b.den_cast_pos)]
  constructor
  · intro h; exact_mod_cast h
  · intro h; exact_mod_cast h

theorem PyFloat.den_add (a b : PyFloat) :
    ((pyAdd a b).den : Rat) = (a.den : Rat) * (b.den : Rat) := by
  unfold pyAdd PyFloat.den
  push_cast
  ring

theorem PyFloat.den_mul (a b : PyFloat) :
    ((pyMul a b).den : Rat) = (a.den : Rat) * (b.den : Rat) := by
  unfold pyMul PyFloat.den
  push_cast
  ring

theorem pyAdd_toRat (a b : PyFloat) : (pyAdd a b).toRat = a.toRat + b.toRat := by
  unfold PyFloat.toRat
  rw [PyFloat.den_add]
  have ha := a.den_cast_pos
  have hb := b.den_cast_pos
  have h1 : ((pyAdd a b).num : Rat) = (a.num : Rat) * (b.den : Rat) + (b.num : Rat) * (a.den : Rat) := by
    unfold pyAdd
    push_cast
    ring
  rw [h1]
  field_simp

theorem pyMul_toRat (a b : PyFloat) : (pyMul a b).toRat = a.toRat * b.toRat := by
  unfold PyFloat.toRat
  rw [PyFloat.den_mul]
  have ha := a.den_cast_pos
  have hb := b.den_cast_pos
  have h1 : ((pyMul a b).num : Rat) = (a.num : Rat) * (b.num : Rat) := by
    unfold pyMul; push_cast; ring
  rw [h1]
  field_simp

theorem pyNeg_toRat (a : PyFloat) : (pyNeg a).toRat = -a.toRat := by
  unfold PyFloat.toRat pyNeg PyFloat.den
  push_cast
  ring

theorem pySub_toRat (a b : PyFloat) : (pySub a b).toRat = a.toRat - b.toRat := by
  unfold pySub
  rw [pyAdd_toRat, pyNeg_toRat]
  ring

theorem pyOfInt_toRat (n : Int) : (PyFloat.ofInt n).toRat = (n : Rat) := by
  unfold PyFloat.toRat PyFloat.ofInt PyFloat.den
  norm_num

/-! ## Strings: Python code-point lexicographic order, substring tests -/

/-- Lexicographic (code point) comparison of character lists; this is the
order Python uses to compare `str` values. -/
def charListLe : List Char → List Char → Bool
  | [], _ => true
  | _ :: _, [] => false
  | a :: as, b :: bs =>
      if a.toNat < b.toNat then true
      else if b.toNat < a.toNat then false
      else charListLe as bs

/-- Python `s <= t` on strings. -/
def strLe (s t : String) : Prop := charListLe s.data t.data = true

instance (s t : String) : Decidable (strLe s t) := by unfold strLe; infer_instance

theorem charListLe_cons (a b : Char) (as bs : List Char) :
    charListLe (a :: as) (b :: bs) = true ↔
      a.toNat < b.toNat ∨ (a.toNat = b.toNat ∧ charListLe as bs = true) := by
  simp only [charListLe]
  by_cases h1 : a.toNat < b.toNat
  · simp [h1]
  · by_cases h2 : b.toNat < a.toNat
    · simp [h1, h2]
      omega
    · have he : a.toNat = b.toNat := by omega
      simp [h1, h2, he]

theorem charListLe_total : ∀ s t : List Char, charListLe s t = true ∨ charListLe t s = true := by
  intro s
  induction s with
  | nil => intro t; left; rfl
  | cons a as ih =>
      intro t
      cases t with
      | nil => right; rfl
      | cons b bs =>
          rw [charListLe_cons, charListLe_cons]
          rcases Nat.lt_trichotomy a.toNat b.toNat with h | h | h
          · left; left; exact h
          · rcases ih bs with h1 | h1
            · left; right; exact ⟨h, h1⟩
            · right; right; exact ⟨h.symm, h1⟩
          · right; left; exact h

theorem charListLe_trans : ∀ s t u : List Char,
    charListLe s t = true → charListLe t u = true → charListLe s u = true := by
  intro s
  induction s with
  | nil => intro t u _ _; rfl
  | cons a as ih =>
      intro t u hst htu
      cases t with
      | nil => simp [charListLe] at hst
      | cons b bs =>
          cases u with
          | nil => simp [charListLe] at htu
          | cons c cs =>
              rw [charListLe_cons] at hst htu ⊢
              rcases hst with h1 | ⟨h1, h1'⟩
              · rcases htu with h2 | ⟨h2, _⟩
                · left; omega
                · left; omega
              · rcases htu with h2 | ⟨h2, h2'⟩
                · left; omega
                · right; exact ⟨h1.trans h2, ih bs cs h1' h2'⟩

theorem strLe_total (s t : String) : strLe s t ∨ strLe t s :=
  charListLe_total s.data t.data

theorem strLe_trans {s t u : String} : strLe s t → strLe t u → strLe s u :=
  charListLe_trans s.data t.data u.data

/-- Contiguous sublist test (used for Python's `in` on strings). -/
def listIsInfixOf (ndl : List Char) : List Char → Bool
  | [] => ndl.isEmpty
  | a :: t => ndl.isPrefixOf (a :: t) || listIsInfixOf ndl t

/-- Python `needle in haystack` on strings (contiguous substring test). -/
def strContains (hay ndl : String) : Bool := listIsInfixOf ndl.data hay.data

/-- Python `s.startswith(p)`. -/
def strStartsWith (s p : String) : Bool := p.data.isPrefixOf s.data

/-! ## Data model: index records (`anime_index/*.json` as loaded by `AnimeIndex`) -/

/-- Value stored under the `number` key of an episode record.  A JSON
number is carried as its value; a JSON string is abstracted by the two
partial parses the code applies to it: `float(s)` (used by
`AnimeIndex.get_next_episode`) and `int(s)` (used by
`AnimePaheBackend.get_episodes`), each `none` when the parse raises. -/
inductive NumVal where
  | num (q : PyFloat)
  | str (asFloat : Option PyFloat) (asInt : Option Int)
deriving DecidableEq

/-- Result of Python `float(v)` on a `number` value. -/
def NumVal.toFloat : NumVal → Option PyFloat
  | .num q => some q
  | .str f _ => f

/-- Result of Python `int(v)` on a `number` value (truncation toward
zero on a float, parse on a string). -/
def NumVal.toInt : NumVal → Option Int
  | .num q => some q.trunc
  | .str _ i => i

/-- An episode record of the index.  Fields the code reads through
`dict.get` are `Option`s (`none` models an absent key). -/
structure Episode where
  number : Option NumVal
  title : Option String
  url : Option String
  episode_id : Option String
  iframe_url : Option String
deriving DecidableEq

/-- An anime record of the index (`id` and `title` are present per the
data model; the code checks explicitly whether `episodes` is). -/
structure Anime where
  id : String
  title : String
  episodes : Option (List Episode)
deriving DecidableEq

/-! ## AnimeIndex: lookup, next-episode, flexible search (`app.py` 25-154) -/

/-- `AnimeIndex.get_anime_by_id`: first record whose `id` matches. -/
def get_anime_by_id (store : List Anime) (aid : String) : Option Anime :=
  store.find? (fun a => a.id == aid)

/-- `AnimeIndex.get_episode`: first episode of the matching anime whose
`episode_id` equals the requested session. -/
def get_episode (store : List Anime) (aid sess : String) : Option Episode :=
  match get_anime_by_id store aid with
  | some a =>
      match a.episodes with
      | some eps => eps.find? (fun ep => ep.episode_id == some sess)
      | none => none
  | none => none

/-- Sort key of `AnimeIndex.get_next_episode`: `float(x.get('number', 0))`;
`none` when the conversion raises. -/
def floatNumberKey (e : Episode) : Option PyFloat :=
  match e.number with
  | none => some (PyFloat.ofInt 0)
  | some v => v.toFloat

/-- Total version of the float sort key (only used where every key is
known to convert). -/
def floatKeyVal (e : Episode) : PyFloat := (floatNumberKey e).getD (PyFloat.ofInt 0)

/-- Order underlying `episodes.sort(key=lambda x: float(x.get('number', 0)))`. -/
def epFloatLe (x y : Episode) : Prop := pyLe (floatKeyVal x) (floatKeyVal y)

instance : DecidableRel epFloatLe := fun x y => by unfold epFloatLe; infer_instance

/-- The in-place sort of `AnimeIndex.get_next_episode`, wrapped in
`try/except: pass`: CPython computes all sort keys before moving any
element, so if any key conversion raises the list is left unchanged. -/
def sortEpisodesByNumber (eps : List Episode) : List Episode :=
  if eps.all (fun e => (floatNumberKey e).isSome) then List.insertionSort epFloatLe eps
  else eps

/-- The scan loop of `AnimeIndex.get_next_episode`: on the first element
whose `episode_id` matches, return the following element if there is
one; reaching the last element yields `None`. -/
def findNextAux (sess : String) : List Episode → Option Episode
  | [] => none
  | [_] => none
  | a :: b :: rest => if a.episode_id = some sess then some b else findNextAux sess (b :: rest)

/-- Replace the first element satisfying `p` (the object Python mutates
in place). -/
def updateFirst {α : Type} (p : α → Bool) (f : α → α) : List α → List α
  | [] => []
  | a :: rest => if p a then f a :: rest else a :: updateFirst p f rest

/-- `AnimeIndex.get_next_episode`.  Python sorts the looked-up anime's
episode list **in place** before scanning, so the function both returns
the next episode and (possibly) changes the stored order; the second
component is the index store after the call. -/
def get_next_episode (store : List Anime) (aid sess : String) :
    Option Episode × List Anime :=
  match get_anime_by_id store aid with
  | none => (none, store)
  | some a =>
      match a.episodes with
      | none => (none, store)
      | some eps =>
          (findNextAux sess (sortEpisodesByNumber eps),
           updateFirst (fun x => x.id == aid)
             (fun x => { x with episodes := x.episodes.map sortEpisodesByNumber }) store)

/-! ## AnimeIndex.flexible_search (`app.py` 75-118)

`normalize_text` (lowercase, strip diacritics via `unicodedata`, trim)
and `similarity_score` (`difflib.SequenceMatcher` ratio of the lowercased
original strings) delegate to external library code; they are carried as
parameters of the search, bundled in `SearchCtx`.  The scoring, filtering,
sorting and truncation logic is embedded from the source. -/

/-- The two text helpers `flexible_search` relies on. -/
structure SearchCtx where
  normalize_text : String → String
  similarity_score : String → String → PyFloat

/-- One entry of the `results` list built by `flexible_search`: the
record itself (spread via `{**anime, ...}`) plus `priority` and
`match_type`. -/
structure SearchResult where
  anime : Anime
  priority : PyFloat
  match_type : String
deriving DecidableEq

/-- One iteration of the `for anime in self.all_anime` loop of
`flexible_search`: compute the match flags and the priority score, and
keep the candidate iff `priority > 20 or contains or starts_with`. -/
def search_candidate (ctx : SearchCtx) (query : String) (anime : Anime) :
    Option SearchResult :=
  let nq := ctx.normalize_text query
  let nt := ctx.normalize_text anime.title
  let exact_match := nq = nt
  let starts_with := strStartsWith nt nq
  let contains := strContains nt nq
  let sim := ctx.similarity_score query anime.title
  let priority :=
    if exact_match then PyFloat.ofInt 100
    else if starts_with then pyAdd (PyFloat.ofInt 80) (pyMul sim (PyFloat.ofInt 10))
    else if contains then pyAdd (PyFloat.ofInt 60) (pyMul sim (PyFloat.ofInt 10))
    else pyMul sim (PyFloat.ofInt 50)
  if pyLt (PyFloat.ofInt 20) priority ∨ contains = true ∨ starts_with = true then
    some ⟨anime, priority,
      if exact_match then "exact"
      else if starts_with then "starts_with"
      else if contains then "contains" else "similar"⟩
  else none

/-- Sort order of `results.sort(key=lambda x: (-x['priority'], x['title']))`:
ascending lexicographic comparison of the key tuples (float value
comparison on the negated priority, code-point comparison on the title). -/
def searchSortLe (x y : SearchResult) : Prop :=
  pyLt (pyNeg x.priority) (pyNeg y.priority) ∨
    (pyEquiv (pyNeg x.priority) (pyNeg y.priority) ∧ strLe x.anime.title y.anime.title)

instance : DecidableRel searchSortLe := fun x y => by unfold searchSortLe; infer_instance

/-- `AnimeIndex.flexible_search`: empty query or empty catalog yield `[]`;
otherwise score every record, keep the reasonable matches, sort by
`(-priority, title)` (Python's sort is stable; `insertionSort` is the
stable sort) and truncate to `limit`. -/
def flexible_search (ctx : SearchCtx) (all_anime : List Anime) (query : String)
    (limit : Nat) : List SearchResult :=
  if query = "" ∨ all_anime = [] then []
  else
    ((all_anime.filterMap (search_candidate ctx query)).insertionSort searchSortLe).take limit

/-! ## Regular expressions of `clean_episode_title` (`app.py` 1098-1127)

A small backtracking matcher covering exactly the constructs the nine
patterns use (anchors, word boundary, character classes, greedy/lazy
repetition).  Classes are modelled over their ASCII meaning; all the
patterns are applied with `re.IGNORECASE`, so literals compare
case-insensitively.  Fuel arguments keep every function structurally
recursive (hence kernel-computable); the supplied fuel strictly exceeds
the recursion depth, which each step bounds by consuming either one
pattern element or one input character. -/

/-- Python `\s` (ASCII part). -/
def isSpaceCh (c : Char) : Bool :=
  c = ' ' || c = '\t' || c = '\n' || c = '\r' || c = '\x0b' || c = '\x0c'

/-- Python `\w` (ASCII part), used for word boundaries. -/
def isWordCh (c : Char) : Bool := c.isAlphanum || c = '_'

/-- Character classes appearing in the patterns. -/
inductive CharCls where
  | space
  | digit
  | anyNoNL
  | inSet (cs : List Char)
  | ci (c : Char)
  | dashSpace
deriving DecidableEq

/-- Class membership. -/
def ccMatch : CharCls → Char → Bool
  | .space, c => isSpaceCh c
  | .digit, c => c.isDigit
  | .anyNoNL, c => c ≠ '\n'
  | .inSet cs, c => cs.contains c
  | .ci l, c => c.toLower = l.toLower
  | .dashSpace, c => c = '-' || isSpaceCh c

/-- Pattern elements: `^`, `$`, `\b`, a single class, a starred class
(greedy or lazy) and an optional class.  `+` is one-then-star. -/
inductive RElem where
  | bol
  | eol
  | wb
  | one (cls : CharCls)
  | star (cls : CharCls) (lazy : Bool)
  | opt (cls : CharCls)
deriving DecidableEq

/-- Backtracking matcher.  `prev` is the character just before the
current position (`none` at the start of the input), needed for `^` and
`\b`; returns the unconsumed suffix of the first match in Python's
preference order (greedy tries longer first, lazy shorter first). -/
def reMatch (fuel : Nat) (es : List RElem) (prev : Option Char) (s : List Char) :
    Option (List Char) :=
  match fuel with
  | 0 => none
  | fuel + 1 =>
    match es with
    | [] => some s
    | .bol :: es' => if prev.isNone then reMatch fuel es' prev s else none
    | .eol :: es' => if s = [] ∨ s = ['\n'] then reMatch fuel es' prev s else none
    | .wb :: es' =>
        let wl := match prev with | some c => isWordCh c | none => false
        let wr := match s with | c :: _ => isWordCh c | [] => false
        if wl ≠ wr then reMatch fuel es' prev s else none
    | .one cls :: es' =>
        match s with
        | [] => none
        | c :: rest => if ccMatch cls c then reMatch fuel es' (some c) rest else none
    | .opt cls :: es' =>
        match s with
        | [] => reMatch fuel es' prev s
        | c :: rest =>
            if ccMatch cls c then
              match reMatch fuel es' (some c) rest with
              | some r => some r
              | none => reMatch fuel es' prev s
            else reMatch fuel es' prev s
    | .star cls lz :: es' =>
        if lz then
          match reMatch fuel es' prev s with
          | some r => some r
          | none =>
              match s with
              | [] => none
              | c :: rest =>
                  if ccMatch cls c then reMatch fuel (.star cls lz :: es') (some c) rest
                  else none
        else
          match s with
          | [] => reMatch fuel es' prev s
          | c :: rest =>
              if ccMatch cls c then
                match reMatch fuel (.star cls lz :: es') (some c) rest with
                | some r => some r
                | none => reMatch fuel es' prev s
              else reMatch fuel es' prev s

/-- Number of characters consumed by the match attempt at the current
position, if any. -/
def reMatchLen (es : List RElem) (prev : Option Char) (s : List Char) : Option Nat :=
  match reMatch (es.length + s.length + 1) es prev s with
  | some rest => some (s.length - rest.length)
  | none => none

/-- Scan of `re.sub`: try a match at every position, left to right and
non-overlapping, replacing each match with `repl`; on an empty match the
replacement is emitted and one input character is copied.  Matching
context (`prev`) always comes from the original input. -/
def reSubAux (fuel : Nat) (es : List RElem) (repl : List Char) (prev : Option Char)
    (s : List Char) : List Char :=
  match fuel with
  | 0 => s
  | fuel + 1 =>
    match reMatchLen es prev s with
    | some n =>
        if n = 0 then
          match s with
          | [] => repl
          | c :: rest => repl ++ c :: reSubAux fuel es repl (some c) rest
        else
          repl ++ reSubAux fuel es repl (s.take n).getLast? (s.drop n)
    | none =>
        match s with
        | [] => []
        | c :: rest => c :: reSubAux fuel es repl (some c) rest

/-- Python `re.sub(pattern, repl, s)` for the supported patterns. -/
def reSub (es : List RElem) (repl : List Char) (s : List Char) : List Char :=
  reSubAux (s.length + 1) es repl none s

/-- A case-insensitive literal string. -/
def ciStr (s : String) : List RElem := s.data.map (fun c => RElem.one (CharCls.ci c))

/-- `+` on a class: one occurrence, then greedily more. -/
def plusCls (c : CharCls) : List RElem := [RElem.one c, RElem.star c false]

/-- `^Episode\s+\d+\s*[-:]?\s*` -/
def patEpisodeNum : List RElem :=
  [RElem.bol] ++ ciStr "Episode" ++ plusCls .space ++ plusCls .digit ++
    [RElem.star .space false, RElem.opt (.inSet ['-', ':']), RElem.star .space false]

/-- `^EP\s*\d+\s*[-:]?\s*` -/
def patEPNum : List RElem :=
  [RElem.bol] ++ ciStr "EP" ++ [RElem.star .space false] ++ plusCls .digit ++
    [RElem.star .space false, RElem.opt (.inSet ['-', ':']), RElem.star .space false]

/-- `^E\d+\s*[-:]?\s*` -/
def patENum : List RElem :=
  [RElem.bol] ++ ciStr "E" ++ plusCls .digit ++
    [RElem.star .space false, RElem.opt (.inSet ['-', ':']), RElem.star .space false]

/-- `Watch\s+Online.*$` -/
def patWatchOnline : List RElem :=
  ciStr "Watch" ++ plusCls .space ++ ciStr "Online" ++ [RElem.star .anyNoNL false, RElem.eol]

/-- `\bBD\b` -/
def patBD : List RElem := [RElem.wb] ++ ciStr "BD" ++ [RElem.wb]

/-- `\d{2}:\d{2}:\d{2}` -/
def patTimestamp : List RElem :=
  [RElem.one .digit, RElem.one .digit, RElem.one (.ci ':'),
   RElem.one .digit, RElem.one .digit, RElem.one (.ci ':'),
   RElem.one .digit, RElem.one .digit]

/-- `\b\d+k\b` -/
def patQuality : List RElem :=
  [RElem.wb] ++ plusCls .digit ++ [RElem.one (.ci 'k'), RElem.wb]

/-- `\[.*?\]` -/
def patBracketed : List RElem :=
  [RElem.one (.ci '['), RElem.star .anyNoNL true, RElem.one (.ci ']')]

/-- `\(.*?\)` -/
def patParenthesized : List RElem :=
  [RElem.one (.ci '('), RElem.star .anyNoNL true, RElem.one (.ci ')')]

/-- The `patterns_to_remove` list, in source order. -/
def patterns_to_remove : List (List RElem) :=
  [patEpisodeNum, patEPNum, patENum, patWatchOnline, patBD,
   patTimestamp, patQuality, patBracketed, patParenthesized]

/-- `[-\s]+` (final whitespace/hyphen collapse). -/
def patDashSpace : List RElem := plusCls .dashSpace

/-- Python `' '.join(title.split())`: collapse whitespace runs to single
spaces and drop leading/trailing whitespace. -/
def joinSplitGo : Bool → Bool → List Char → List Char
  | _, _, [] => []
  | started, pending, c :: rest =>
      if isSpaceCh c then joinSplitGo started (pending || started) rest
      else if pending then ' ' :: c :: joinSplitGo true false rest
      else c :: joinSplitGo true false rest

/-- Entry point of the whitespace normalization. -/
def joinSplit (l : List Char) : List Char := joinSplitGo false false l

/-- Python `s.strip()` (ASCII whitespace). -/
def pyStrip (l : List Char) : List Char :=
  ((l.dropWhile isSpaceCh).reverse.dropWhile isSpaceCh).reverse

/-- Python `s.isdigit()` (ASCII model): non-empty and all digits. -/
def listIsDigit (l : List Char) : Bool := !l.isEmpty && l.all Char.isDigit

/-- `AnimePaheBackend.clean_episode_title`: whitespace-normalize, delete
every occurrence of the nine patterns in order, collapse `[-\s]+` runs
to single spaces, strip; fall back to the literal `"Episode"` when the
input or the residue is empty, all digits, or shorter than 2. -/
def clean_episode_title (title : String) : String :=
  if title = "" then "Episode"
  else
    let t1 := joinSplit title.data
    let t2 := patterns_to_remove.foldl (fun acc p => reSub p [] acc) t1
    let t3 := pyStrip (reSub patDashSpace [' '] t2)
    if t3 = [] ∨ listIsDigit t3 = true ∨ t3.length < 2 then "Episode"
    else String.mk t3


/-! ## AnimePaheBackend.get_episodes: index-backed episode listing with
pagination (`app.py` 22-23, 787-835) -/

/-- Page size constant `EPISODES_PER_PAGE`. -/
def EPISODES_PER_PAGE : Int := 50

/-- A formatted episode dictionary built by `get_episodes` (also the
shape of scraped episode dictionaries, used by
`remove_duplicate_episodes`).  The `number` key is always present but
carries `ep.get('number')`, which is `None` when the index record lacks
the field. -/
structure FmtEp where
  number : Option NumVal
  title : String
  url : Option String
  session : Option String
deriving DecidableEq

/-- The per-episode formatting step of `get_episodes`. -/
def fmtEpisode (ep : Episode) : FmtEp :=
  ⟨ep.number, clean_episode_title (ep.title.getD ""), ep.url, ep.episode_id⟩

/-- Errors Python's `int(x.get('number', 0))` can raise while the sort
builds its key array: `ValueError` on an unparseable string (caught by
the code), `TypeError` on `None` (not caught, so it propagates). -/
inductive SortErr where
  | valueError
  | typeError
deriving DecidableEq

/-- Sequential key computation of `list.sort(key=...)`: the first
failing conversion determines the exception; keys are all computed
before any reordering. -/
def intKeys : List FmtEp → Except SortErr (List Int)
  | [] => .ok []
  | e :: rest =>
      match e.number with
      | none => .error .typeError
      | some v =>
          match v.toInt with
          | none => .error .valueError
          | some k =>
              match intKeys rest with
              | .ok ks => .ok (k :: ks)
              | .error er => .error er

/-- Total version of the integer sort key (used only when `intKeys`
succeeded). -/
def intKeyVal (e : FmtEp) : Int := (e.number.bind NumVal.toInt).getD 0

/-- Order underlying `sort(key=lambda x: int(x.get('number', 0)))`. -/
def fmtIntLe (x y : FmtEp) : Prop := intKeyVal x ≤ intKeyVal y

instance : DecidableRel fmtIntLe := fun x y => by unfold fmtIntLe; infer_instance

/-- Formatting plus the guarded numeric sort of `get_episodes`:
`except ValueError` leaves the order unchanged; a `TypeError` escapes. -/
def sortedFormatted (a : Anime) : Except SortErr (List FmtEp) :=
  let fmt := (a.episodes.getD []).map fmtEpisode
  match intKeys fmt with
  | .ok _ => .ok (List.insertionSort fmtIntLe fmt)
  | .error .valueError => .ok fmt
  | .error .typeError => .error .typeError

/-- Python slice `l[a:b]` (negative indices count from the end, bounds
are clamped). -/
def pySlice {α : Type} (l : List α) (a b : Int) : List α :=
  let n : Int := l.length
  let a' : Int := if a < 0 then max (n + a) 0 else min a n
  let b' : Int := if b < 0 then max (n + b) 0 else min b n
  (l.take b'.toNat).drop a'.toNat

/-- Return value of `get_episodes` / `scrape_episodes_page`. -/
structure EpisodesResult where
  title : String
  episodes : List FmtEp
  total_episodes : Nat
  has_next_page : Bool
  current_page : Int
  next_page : Option Int
deriving DecidableEq

/-- `AnimePaheBackend.get_episodes`: resolve the episode list from the
index, sort numerically, slice a fixed page of `EPISODES_PER_PAGE`, and
derive `has_next_page` / `next_page` from the slice boundary. -/
def AnimePaheBackend.get_episodes (store : List Anime) (aid : String) (page : Int) :
    Except SortErr EpisodesResult :=
  match get_anime_by_id store aid with
  | none => .ok ⟨"Unknown Anime", [], 0, false, page, none⟩
  | some a =>
      match sortedFormatted a with
      | .error e => .error e
      | .ok all_formatted_episodes =>
          let total : Nat := all_formatted_episodes.length
          let start_index : Int := (page - 1) * EPISODES_PER_PAGE
          let end_index : Int := page * EPISODES_PER_PAGE
          let has_next : Bool := decide (end_index < (total : Int))
          .ok ⟨a.title, pySlice all_formatted_episodes start_index end_index, total,
               has_next, page, if has_next then some (page + 1) else none⟩

/-! ## AnimePaheBackend.remove_duplicate_episodes (`app.py` 1159-1170) -/

/-- Loop of `remove_duplicate_episodes` with the `seen_sessions` set:
keep an episode iff its session id is present, non-empty and not seen
before. -/
def removeDupAux (seen : List String) : List FmtEp → List FmtEp
  | [] => []
  | e :: rest =>
      match e.session with
      | some s =>
          if s ≠ "" ∧ s ∉ seen then e :: removeDupAux (s :: seen) rest
          else removeDupAux seen rest
      | none => removeDupAux seen rest

/-- `AnimePaheBackend.remove_duplicate_episodes`. -/
def remove_duplicate_episodes (episodes : List FmtEp) : List FmtEp :=
  removeDupAux [] episodes

/-! ## CacheManager: listing caches with a 24-hour TTL (`app.py` 282-324) -/

/-- One of the singleton listing cache values
(`cache['currently_airing_episodes']` / `cache['popular_anime']`),
abstracted over the item type.  The surrounding `Option` is `none` when
the stored value is falsy (an empty dict); `timestamp = none` models a
missing key, `some none` a string `datetime.fromisoformat` rejects, and
`some (some t)` a parseable timestamp with value `t` (in seconds). -/
structure ListingEntry (α : Type) where
  items : Option (List α)
  timestamp : Option (Option PyFloat)
  count : Option Nat
deriving DecidableEq

/-- Seconds in `timedelta(hours=24)`. -/
def TTL_SECONDS : Int := 86400

/-- `CacheManager.get_currently_airing_episodes`: the stored episodes if
the entry is truthy, its timestamp parses and is younger than 24 hours;
`None` otherwise (including on a parse error, which is caught and
logged). -/
def CacheManager.get_currently_airing_episodes {α : Type} (now : PyFloat)
    (slot : Option (ListingEntry α)) : Option (List α) :=
  match slot with
  | none => none
  | some e =>
      match e.timestamp with
      | none => none
      | some none => none
      | some (some t) =>
          if pyLt (pySub now t) (PyFloat.ofInt TTL_SECONDS) then some (e.items.getD [])
          else none

/-- `CacheManager.get_popular_anime`: identical policy over the
`popular_anime` slot (whose items live under the `anime` key). -/
def CacheManager.get_popular_anime {α : Type} (now : PyFloat)
    (slot : Option (ListingEntry α)) : Option (List α) :=
  match slot with
  | none => none
  | some e =>
      match e.timestamp with
      | none => none
      | some none => none
      | some (some t) =>
          if pyLt (pySub now t) (PyFloat.ofInt TTL_SECONDS) then some (e.items.getD [])
          else none

/-- `CacheManager.set_currently_airing_episodes` (and, identically,
`set_popular_anime`): store the items with a fresh timestamp and count. -/
def CacheManager.set_listing {α : Type} (items : List α) (now : PyFloat) :
    Option (ListingEntry α) :=
  some ⟨some items, some (some now), some items.length⟩

/-! ## CacheManager: iframe cache, and the index-first iframe resolution
(`app.py` 265-280, 1173-1308) -/

/-- A cached iframe entry (`cache['episode_iframes'][anime_id][session]`). -/
structure IframeEntry where
  iframe_url : Option String
  timestamp : PyFloat
  success : Bool
deriving DecidableEq

/-- The iframe section of the cache, keyed by (anime id, episode session). -/
abbrev IframeCache := List ((String × String) × IframeEntry)

/-- `CacheManager.get_episode_iframe`. -/
def CacheManager.get_episode_iframe (c : IframeCache) (aid sess : String) :
    Option IframeEntry :=
  (c.find? (fun kv => kv.1 == (aid, sess))).map (fun kv => kv.2)

/-- `CacheManager.set_episode_iframe`: store `iframe_url`, a fresh
timestamp and the `success` flag under the (anime id, session) key,
overwriting any previous entry (the `error` field of the result dict is
not persisted). -/
def CacheManager.set_episode_iframe (c : IframeCache) (aid sess : String)
    (url : Option String) (success : Bool) (now : PyFloat) : IframeCache :=
  if c.any (fun kv => kv.1 == (aid, sess)) then
    c.map (fun kv => if kv.1 == (aid, sess) then (kv.1, ⟨url, now, success⟩) else kv)
  else c ++ [((aid, sess), ⟨url, now, success⟩)]

/-- Remove the entry under one key (used to state that a failed cached
entry behaves exactly like no entry at all). -/
def eraseIframeEntry (c : IframeCache) (aid sess : String) : IframeCache :=
  c.filter (fun kv => !(kv.1 == (aid, sess)))

/-- Dict shape returned by the iframe resolution functions. -/
structure IframeResult where
  iframe_url : Option String
  success : Bool
  error : Option String
deriving DecidableEq

/-- Episode page URL `f"{base_url}/play/{anime_id}/{episode_session}"`. -/
def episodeUrl (aid sess : String) : String :=
  "https://animepahe.si/play/" ++ aid ++ "/" ++ sess

/-- Outcome of the live browser part of `_scrape_episode_iframe` (page
load, DDoS-Guard wait, 404 check, the four extraction strategies, and
any raised exception), which is external I/O and is therefore a
parameter of the embedding. -/
inductive LiveOutcome where
  | pageNotFound
  | found (url : String)
  | nothingFound
  | exn (msg : String)
deriving DecidableEq

/-- The scrape-and-persist part of `_scrape_episode_iframe` (everything
after the cache check): each outcome is written back through
`CacheManager.set_episode_iframe` before the function returns. -/
def AnimePaheBackend.performScrape (now : PyFloat) (cache : IframeCache)
    (aid sess : String) (live : LiveOutcome) : IframeResult × IframeCache :=
  match live with
  | .pageNotFound =>
      (⟨none, false, some ("Episode page not found (404): " ++ episodeUrl aid sess)⟩,
       CacheManager.set_episode_iframe cache aid sess none false now)
  | .found u =>
      (⟨some u, true, none⟩, CacheManager.set_episode_iframe cache aid sess (some u) true now)
  | .nothingFound =>
      (⟨none, false, some "No iframe found on page"⟩,
       CacheManager.set_episode_iframe cache aid sess none false now)
  | .exn m =>
      (⟨none, false, some m⟩, CacheManager.set_episode_iframe cache aid sess none false now)

/-- `AnimePaheBackend._scrape_episode_iframe`: a cached entry
short-circuits only when `cached_iframe['success']` is truthy; anything
else falls through to the live scrape. -/
def AnimePaheBackend.scrape_episode_iframe (now : PyFloat) (cache : IframeCache)
    (aid sess : String) (live : LiveOutcome) : IframeResult × IframeCache :=
  match CacheManager.get_episode_iframe cache aid sess with
  | some e =>
      if e.success then (⟨e.iframe_url, true, none⟩, cache)
      else AnimePaheBackend.performScrape now cache aid sess live
  | none => AnimePaheBackend.performScrape now cache aid sess live

/-- `AnimePaheBackend.get_episode_iframe`: index first — a truthy
(non-empty) `iframe_url` in the index returns immediately with success
and without touching the cache; otherwise fall back to the scraper. -/
def AnimePaheBackend.get_episode_iframe (now : PyFloat) (index : List Anime)
    (cache : IframeCache) (aid sess : String) (live : LiveOutcome) :
    IframeResult × IframeCache :=
  match get_episode index aid sess with
  | some ep =>
      match ep.iframe_url with
      | some u =>
          if u ≠ "" then (⟨some u, true, none⟩, cache)
          else AnimePaheBackend.scrape_episode_iframe now cache aid sess live
      | none => AnimePaheBackend.scrape_episode_iframe now cache aid sess live
  | none => AnimePaheBackend.scrape_episode_iframe now cache aid sess live

/-! ## Theorems -/

theorem pyLt_sub_add (T : PyFloat) (d c : Int) (h : d < c) :
    pyLt (pySub (pyAdd T (PyFloat.ofInt d)) T) (PyFloat.ofInt c) := by
  rw [pyLt_iff, pySub_toRat, pyAdd_toRat, pyOfInt_toRat, pyOfInt_toRat]
  have : ((d : Rat)) < (c : Rat) := by exact_mod_cast h
  linarith

theorem not_pyLt_sub_add (T : PyFloat) (d c : Int) (h : c ≤ d) :
    ¬ pyLt (pySub (pyAdd T (PyFloat.ofInt d)) T) (PyFloat.ofInt c) := by
  rw [pyLt_iff, pySub_toRat, pyAdd_toRat, pyOfInt_toRat, pyOfInt_toRat]
  have : ((c : Rat)) ≤ (d : Rat) := by exact_mod_cast h
  linarith

/-- C5: for both listing kinds (currently airing and popular), the cache
getter returns the stored items iff a truthy entry with a parseable
timestamp is present and `now - timestamp` is strictly below 24 hours,
and returns `none` (a miss, not an error) otherwise; an entry written at
time `T` is a hit at `T + 23h59m` and a miss at `T + 24h01m`. -/
theorem listing_cache_ttl :
    (∀ (α : Type) (now : PyFloat) (slot : Option (ListingEntry α)),
      ((∃ l, CacheManager.get_currently_airing_episodes now slot = some l) ↔
        ∃ e t, slot = some e ∧ e.timestamp = some (some t) ∧
          pyLt (pySub now t) (PyFloat.ofInt TTL_SECONDS)) ∧
      ((∃ l, CacheManager.get_popular_anime now slot = some l) ↔
        ∃ e t, slot = some e ∧ e.timestamp = some (some t) ∧
          pyLt (pySub now t) (PyFloat.ofInt TTL_SECONDS)) ∧
      (∀ e t, slot = some e → e.timestamp = some (some t) →
        pyLt (pySub now t) (PyFloat.ofInt TTL_SECONDS) →
        CacheManager.get_currently_airing_episodes now slot = some (e.items.getD []) ∧
        CacheManager.get_popular_anime now slot = some (e.items.getD []))) ∧
    (∀ (α : Type) (T : PyFloat) (items : List α),
      CacheManager.get_currently_airing_episodes (pyAdd T (PyFloat.ofInt 86340))
          (CacheManager.set_listing items T) = some items ∧
      CacheManager.get_popular_anime (pyAdd T (PyFloat.ofInt 86340))
          (CacheManager.set_listing items T) = some items ∧
      CacheManager.get_currently_airing_episodes (pyAdd T (PyFloat.ofInt 86460))
          (CacheManager.set_listing items T) = none ∧
      CacheManager.get_popular_anime (pyAdd T (PyFloat.ofInt 86460))
          (CacheManager.set_listing items T) = none) := by
  constructor
  · intro α now slot
    refine ⟨?_, ?_, ?_⟩
    · constructor
      · intro ⟨l, hl⟩
        rcases slot with _ | e
        · simp [CacheManager.get_currently_airing_episodes] at hl
        · rcases he : e.timestamp with _ | t
          · simp [CacheManager.get_currently_airing_episodes, he] at hl
          · rcases t with _ | t
            · simp [CacheManager.get_currently_airing_episodes, he] at hl
            · refine ⟨e, t, rfl, he, ?_⟩
              by_contra hfresh
              simp [CacheManager.get_currently_airing_episodes, he, hfresh] at hl
      · intro ⟨e, t, hs, he, hfresh⟩
        subst hs
        exact ⟨e.items.getD [],
          by simp [CacheManager.get_currently_airing_episodes, he, hfresh]⟩
    · constructor
      · intro ⟨l, hl⟩
        rcases slot with _ | e
        · simp [CacheManager.get_popular_anime] at hl
        · rcases he : e.timestamp with _ | t
          · simp [CacheManager.get_popular_anime, he] at hl
          · rcases t with _ | t
            · simp [CacheManager.get_popular_anime, he] at hl
            · refine ⟨e, t, rfl, he, ?_⟩
              by_contra hfresh
              simp [CacheManager.get_popular_anime, he, hfresh] at hl
      · intro ⟨e, t, hs, he, hfresh⟩
        subst hs
        exact ⟨e.items.getD [], by simp [CacheManager.get_popular_anime, he, hfresh]⟩
    · intro e t hs he hfresh
      subst hs
      exact ⟨by simp [CacheManager.get_currently_airing_episodes, he, hfresh],
             by simp [CacheManager.get_popular_anime, he, hfresh]⟩
  · intro α T items
    have hfresh := pyLt_sub_add T 86340 TTL_SECONDS (by norm_num [TTL_SECONDS])
    have hstale := not_pyLt_sub_add T 86460 TTL_SECONDS (by norm_num [TTL_SECONDS])
    refine ⟨?_, ?_, ?_, ?_⟩ <;>
      simp [CacheManager.get_currently_airing_episodes, CacheManager.get_popular_anime,
        CacheManager.set_listing, hfresh, hstale]

/-- Concrete instance of `listing_cache_ttl`: an entry of one item
written at time 0 is a hit 23h59m later and a miss 24h01m later. -/
theorem listing_cache_ttl_witness :
    CacheManager.get_currently_airing_episodes
        (pyAdd (PyFloat.ofInt 0) (PyFloat.ofInt 86340))
        (CacheManager.set_listing [7] (PyFloat.ofInt 0)) = some [7] ∧
    CacheManager.get_currently_airing_episodes
        (pyAdd (PyFloat.ofInt 0) (PyFloat.ofInt 86460))
        (CacheManager.set_listing ([7] : List Nat) (PyFloat.ofInt 0)) = none := by
  have h := listing_cache_ttl.2 Nat (PyFloat.ofInt 0) [7]
  exact ⟨h.1, h.2.2.1⟩

/-- C6: a cached iframe entry with `success = false` is never returned
as a hit: the scraper's result then coincides with the result of a
scrape on a cache with no entry at all (extraction is re-invoked from
scratch and its outcome persisted); only `success = true` short-circuits,
returning the stored URL and leaving the cache untouched. -/
theorem failed_iframe_entry_triggers_rescrape :
    ∀ (now : PyFloat) (cache : IframeCache) (aid sess : String) (live : LiveOutcome)
      (e : IframeEntry),
      CacheManager.get_episode_iframe cache aid sess = some e →
      (e.success = false →
        AnimePaheBackend.scrape_episode_iframe now cache aid sess live =
          AnimePaheBackend.performScrape now cache aid sess live ∧
        (AnimePaheBackend.scrape_episode_iframe now cache aid sess live).1 =
          (AnimePaheBackend.scrape_episode_iframe now
            (eraseIframeEntry cache aid sess) aid sess live).1) ∧
      (e.success = true →
        AnimePaheBackend.scrape_episode_iframe now cache aid sess live =
          (⟨e.iframe_url, true, none⟩, cache)) := by
  intro now cache aid sess live e hlook
  have herase : CacheManager.get_episode_iframe (eraseIframeEntry cache aid sess) aid sess = none := by
    unfold CacheManager.get_episode_iframe eraseIframeEntry
    have hfind : List.find? (fun kv => kv.1 == (aid, sess))
        (List.filter (fun kv => !(kv.1 == (aid, sess))) cache) = none := by
      rw [List.find?_eq_none]
      intro kv hkv
      have h2 := List.of_mem_filter hkv
      simpa using h2
    rw [hfind]
    rfl
  constructor
  · intro hfail
    constructor
    · unfold AnimePaheBackend.scrape_episode_iframe
      rw [hlook]
      simp [hfail]
    · unfold AnimePaheBackend.scrape_episode_iframe
      rw [hlook, herase]
      simp only [hfail, Bool.false_eq_true, if_false]
      unfold AnimePaheBackend.performScrape
      cases live <;> simp
  · intro hsucc
    unfold AnimePaheBackend.scrape_episode_iframe
    rw [hlook]
    simp [hsucc]

/-- Concrete instance of `failed_iframe_entry_triggers_rescrape`: with a
stored failure for the key, a re-query runs the extraction and returns
its (here successful) outcome instead of the cached failure. -/
theorem failed_iframe_entry_witness :
    AnimePaheBackend.scrape_episode_iframe (PyFloat.ofInt 5)
        [(("a", "s"), ⟨none, PyFloat.ofInt 1, false⟩)] "a" "s" (.found "https://kwik.si/e/1") =
      AnimePaheBackend.performScrape (PyFloat.ofInt 5)
        [(("a", "s"), ⟨none, PyFloat.ofInt 1, false⟩)] "a" "s" (.found "https://kwik.si/e/1") ∧
    (AnimePaheBackend.scrape_episode_iframe (PyFloat.ofInt 5)
        [(("a", "s"), ⟨none, PyFloat.ofInt 1, false⟩)] "a" "s" (.found "https://kwik.si/e/1")).1 =
      ⟨some "https://kwik.si/e/1", true, none⟩ ∧
    AnimePaheBackend.scrape_episode_iframe (PyFloat.ofInt 5)
        [(("a", "s"), ⟨some "u", PyFloat.ofInt 1, true⟩)] "a" "s" (.found "w") =
      (⟨some "u", true, none⟩, [(("a", "s"), ⟨some "u", PyFloat.ofInt 1, true⟩)]) := by
  refine ⟨?_, by decide, ?_⟩
  · have h := failed_iframe_entry_triggers_rescrape (PyFloat.ofInt 5)
      [(("a", "s"), ⟨none, PyFloat.ofInt 1, false⟩)] "a" "s" (.found "https://kwik.si/e/1")
      ⟨none, PyFloat.ofInt 1, false⟩ (by decide)
    exact (h.1 rfl).1
  · have h := failed_iframe_entry_triggers_rescrape (PyFloat.ofInt 5)
      [(("a", "s"), ⟨some "u", PyFloat.ofInt 1, true⟩)] "a" "s" (.found "w")
      ⟨some "u", PyFloat.ofInt 1, true⟩ (by decide)
    exact h.2 rfl

/-- C7: when the index holds a non-empty `iframe_url` for the requested
(anime id, session) pair, `get_episode_iframe` returns it with success
immediately; the cache component is returned unchanged and the result is
the same whatever the cache contains (the cache is neither read nor
written). -/
theorem indexed_iframe_bypasses_cache :
    ∀ (now : PyFloat) (index : List Anime) (cache : IframeCache) (aid sess : String)
      (live : LiveOutcome) (ep : Episode) (u : String),
      get_episode index aid sess = some ep →
      ep.iframe_url = some u →
      u ≠ "" →
      AnimePaheBackend.get_episode_iframe now index cache aid sess live =
        (⟨some u, true, none⟩, cache) ∧
      (∀ cache' : IframeCache,
        (AnimePaheBackend.get_episode_iframe now index cache aid sess live).1 =
          (AnimePaheBackend.get_episode_iframe now index cache' aid sess live).1) := by
  intro now index cache aid sess live ep u hep hurl hne
  have hmain : ∀ c : IframeCache,
      AnimePaheBackend.get_episode_iframe now index c aid sess live =
        (⟨some u, true, none⟩, c) := by
    intro c
    unfold AnimePaheBackend.get_episode_iframe
    rw [hep]
    simp [hurl, hne]
  exact ⟨hmain cache, fun cache' => by rw [hmain cache, hmain cache']⟩

/-- Concrete instance of `indexed_iframe_bypasses_cache`. -/
theorem indexed_iframe_witness :
    AnimePaheBackend.get_episode_iframe (PyFloat.ofInt 0)
        [⟨"a", "T", some [⟨some (.num (PyFloat.ofInt 1)), some "t", some "u",
            some "s", some "https://kwik.si/e/9"⟩]⟩]
        [(("a", "s"), ⟨none, PyFloat.ofInt 1, false⟩)] "a" "s" (.exn "boom") =
      (⟨some "https://kwik.si/e/9", true, none⟩,
        [(("a", "s"), ⟨none, PyFloat.ofInt 1, false⟩)]) := by
  exact (indexed_iframe_bypasses_cache (PyFloat.ofInt 0) _ _ "a" "s" (.exn "boom")
    ⟨some (.num (PyFloat.ofInt 1)), some "t", some "u", some "s", some "https://kwik.si/e/9"⟩
    "https://kwik.si/e/9" (by decide) rfl (by decide)).1

theorem removeDupAux_cons_none {x : FmtEp} (seen : List String) (rest : List FmtEp)
    (h : x.session = none) :
    removeDupAux seen (x :: rest) = removeDupAux seen rest := by
  simp only [removeDupAux, h]

theorem removeDupAux_cons_kept {x : FmtEp} {s : String} (seen : List String)
    (rest : List FmtEp) (h : x.session = some s) (hk : s ≠ "" ∧ s ∉ seen) :
    removeDupAux seen (x :: rest) = x :: removeDupAux (s :: seen) rest := by
  simp only [removeDupAux, h]
  rw [if_pos hk]

theorem removeDupAux_cons_dropped {x : FmtEp} {s : String} (seen : List String)
    (rest : List FmtEp) (h : x.session = some s) (hk : ¬ (s ≠ "" ∧ s ∉ seen)) :
    removeDupAux seen (x :: rest) = removeDupAux seen rest := by
  simp only [removeDupAux, h]
  rw [if_neg hk]

theorem removeDupAux_sublist (seen : List String) :
    ∀ l : List FmtEp, (removeDupAux seen l).Sublist l := by
  intro l
  induction l generalizing seen with
  | nil => exact List.Sublist.refl []
  | cons e rest ih =>
      rcases hs : e.session with _ | s
      · rw [removeDupAux_cons_none seen rest hs]
        exact (ih seen).cons e
      · by_cases hk : s ≠ "" ∧ s ∉ seen
        · rw [removeDupAux_cons_kept seen rest hs hk]
          exact (ih (s :: seen)).cons₂ e
        · rw [removeDupAux_cons_dropped seen rest hs hk]
          exact (ih seen).cons e

theorem removeDupAux_sessions (seen : List String) :
    ∀ (l : List FmtEp) (e : FmtEp), e ∈ removeDupAux seen l →
      ∃ s, e.session = some s ∧ s ≠ "" := by
  intro l
  induction l generalizing seen with
  | nil => intro e he; simp [removeDupAux] at he
  | cons x rest ih =>
      intro e he
      rcases hs : x.session with _ | s
      · rw [removeDupAux_cons_none seen rest hs] at he
        exact ih seen e he
      · by_cases hk : s ≠ "" ∧ s ∉ seen
        · rw [removeDupAux_cons_kept seen rest hs hk] at he
          rcases List.mem_cons.mp he with h | h
          · exact ⟨s, h ▸ hs, hk.1⟩
          · exact ih (s :: seen) e h
        · rw [removeDupAux_cons_dropped seen rest hs hk] at he
          exact ih seen e he

theorem removeDupAux_filter (s : String) (hs : s ≠ "") :
    ∀ (l : List FmtEp) (seen : List String),
      (removeDupAux seen l).filter (fun e => e.session == some s) =
        if s ∈ seen then [] else (l.filter (fun e => e.session == some s)).take 1 := by
  intro l
  induction l with
  | nil => intro seen; simp [removeDupAux]
  | cons x rest ih =>
      intro seen
      rcases hx : x.session with _ | s'
      · rw [removeDupAux_cons_none seen rest hx]
        have hne : (x.session == some s) = false := by simp [hx]
        rw [List.filter_cons]
        simp only [hne, Bool.false_eq_true, if_false]
        exact ih seen
      · by_cases hk : s' ≠ "" ∧ s' ∉ seen
        · rw [removeDupAux_cons_kept seen rest hx hk]
          by_cases hss : s' = s
          · subst hss
            have hpos : (x.session == some s') = true := by simp [hx]
            rw [List.filter_cons, List.filter_cons]
            simp only [hpos, if_true]
            rw [ih (s' :: seen)]
            rw [if_pos (List.mem_cons_self s' seen), if_neg hk.2]
            simp
          · have hneg : (x.session == some s) = false := by simp [hx, hss]
            rw [List.filter_cons, List.filter_cons]
            simp only [hneg, Bool.false_eq_true, if_false]
            rw [ih (s' :: seen)]
            have hmemiff : s ∈ s' :: seen ↔ s ∈ seen := by
              simp only [List.mem_cons, or_iff_right_iff_imp]
              intro h
              exact absurd h.symm hss
            by_cases hmem : s ∈ seen
            · rw [if_pos (hmemiff.mpr hmem), if_pos hmem]
            · rw [if_neg (fun h => hmem (hmemiff.mp h)), if_neg hmem]
        · by_cases hss : s' = s
          · subst hss
            rcases not_and_or.mp hk with h | h
            · exact absurd (not_not.mp h) hs
            · have hmem : s' ∈ seen := not_not.mp h
              rw [removeDupAux_cons_dropped seen rest hx hk]
              have hpos : (x.session == some s') = true := by simp [hx]
              rw [List.filter_cons]
              simp only [hpos, if_true]
              rw [ih seen, if_pos hmem, if_pos hmem]
          · rw [removeDupAux_cons_dropped seen rest hx hk]
            have hneg : (x.session == some s) = false := by simp [hx, hss]
            rw [List.filter_cons]
            simp only [hneg, Bool.false_eq_true, if_false]
            exact ih seen

/-- C10: `remove_duplicate_episodes` keeps, in original order, exactly
the first occurrence of each distinct non-empty session id: the output
is a sublist of the input, every surviving record has a non-empty
session, and for every non-empty session id the survivors with that id
are exactly the first input record carrying it (so N records sharing an
id collapse to the first); records with a missing or empty session are
removed. -/
theorem remove_duplicate_episodes_spec :
    ∀ l : List FmtEp,
      (remove_duplicate_episodes l).Sublist l ∧
      (∀ e ∈ remove_duplicate_episodes l, ∃ s, e.session = some s ∧ s ≠ "") ∧
      (∀ s : String, s ≠ "" →
        (remove_duplicate_episodes l).filter (fun e => e.session == some s) =
          (l.filter (fun e => e.session == some s)).take 1) := by
  intro l
  refine ⟨removeDupAux_sublist [] l, removeDupAux_sessions [] l, ?_⟩
  intro s hs
  have h := removeDupAux_filter s hs l []
  simpa using h

/-- Concrete instance of `remove_duplicate_episodes_spec`: of three
records sharing session `"x"` (plus one empty-session and one
missing-session record), exactly the first `"x"` record survives. -/
theorem remove_duplicate_episodes_witness :
    (remove_duplicate_episodes
        [⟨none, "a", none, some "x"⟩, ⟨none, "b", none, some ""⟩,
         ⟨none, "c", none, some "x"⟩, ⟨none, "d", none, none⟩,
         ⟨none, "e", none, some "x"⟩]).filter
        (fun e => e.session == some "x") = [⟨none, "a", none, some "x"⟩] ∧
    remove_duplicate_episodes
        [⟨none, "a", none, some "x"⟩, ⟨none, "b", none, some ""⟩,
         ⟨none, "c", none, some "x"⟩, ⟨none, "d", none, none⟩,
         ⟨none, "e", none, some "x"⟩] = [⟨none, "a", none, some "x"⟩] := by
  constructor
  · have h := (remove_duplicate_episodes_spec
      [⟨none, "a", none, some "x"⟩, ⟨none, "b", none, some ""⟩,
       ⟨none, "c", none, some "x"⟩, ⟨none, "d", none, none⟩,
       ⟨none, "e", none, some "x"⟩]).2.2 "x" (by decide)
    rw [h]
    decide
  · decide

theorem fallback_shape (t3 : List Char) :
    (if t3 = [] ∨ listIsDigit t3 = true ∨ t3.length < 2 then "Episode" else String.mk t3) =
        "Episode" ∨
      ((if t3 = [] ∨ listIsDigit t3 = true ∨ t3.length < 2 then "Episode" else String.mk t3) ≠ "" ∧
        listIsDigit ((if t3 = [] ∨ listIsDigit t3 = true ∨ t3.length < 2 then "Episode"
          else String.mk t3)).data = false ∧
        2 ≤ ((if t3 = [] ∨ listIsDigit t3 = true ∨ t3.length < 2 then "Episode"
          else String.mk t3)).length) := by
  by_cases hc : t3 = [] ∨ listIsDigit t3 = true ∨ t3.length < 2
  · left; rw [if_pos hc]
  · right
    rw [if_neg hc]
    push_neg at hc
    obtain ⟨h1, h2, h3⟩ := hc
    refine ⟨?_, ?_, ?_⟩
    · intro h
      apply h1
      have : (String.mk t3).data = ("" : String).data := by rw [h]
      simpa using this
    · show listIsDigit t3 = false
      exact Bool.not_eq_true _ |>.mp h2
    · show 2 ≤ t3.length
      omega

/-- C9: `clean_episode_title` maps `"Episode 5 - Some Title [1080p]"` to
`"Some Title"`, sends an all-numeric residue (`"Episode 5 - 123"`) to the
placeholder, and for every input either returns the literal `"Episode"`
or a non-empty, not-all-digits result of length at least 2 (the fallback
fires exactly when the stripped remainder is empty, purely numeric, or
under 2 characters). -/
theorem clean_episode_title_spec :
    clean_episode_title "Episode 5 - Some Title [1080p]" = "Some Title" ∧
    clean_episode_title "Episode 5 - 123" = "Episode" ∧
    ∀ s : String, clean_episode_title s = "Episode" ∨
      (clean_episode_title s ≠ "" ∧ listIsDigit (clean_episode_title s).data = false ∧
        2 ≤ (clean_episode_title s).length) := by
  refine ⟨by decide, by decide, ?_⟩
  intro s
  unfold clean_episode_title
  by_cases h0 : s = ""
  · left; rw [if_pos h0]
  · rw [if_neg h0]
    exact fallback_shape _

theorem pySlice_page1 {α : Type} (l : List α) (h : l.length = 120) :
    pySlice l 0 50 = l.take 50 := by
  unfold pySlice
  rw [h]
  norm_num
  rfl

theorem pySlice_page3 {α : Type} (l : List α) (h : l.length = 120) :
    pySlice l 100 150 = l.drop 100 := by
  unfold pySlice
  rw [h]
  norm_num
  rw [show Int.toNat 100 = 100 from rfl, show Int.toNat 120 = 120 from rfl,
      List.take_of_length_le (by omega)]

/-- C4: the index-backed episode listing slices pages of 50 after the
numeric sort and derives `has_next_page`/`next_page` from the slice
boundary: with 120 episodes, page 1 returns the first 50 sorted episodes
with `has_next_page = true` and `next_page = 2`, and page 3 returns
episodes 101-120 with `has_next_page = false` and no next page. -/
theorem get_episodes_pagination :
    ∀ (store : List Anime) (aid : String) (a : Anime) (l : List FmtEp),
      get_anime_by_id store aid = some a →
      sortedFormatted a = .ok l →
      l.length = 120 →
      AnimePaheBackend.get_episodes store aid 1 =
        .ok ⟨a.title, l.take 50, 120, true, 1, some 2⟩ ∧
      AnimePaheBackend.get_episodes store aid 3 =
        .ok ⟨a.title, l.drop 100, 120, false, 3, none⟩ := by
  intro store aid a l hfind hsort hlen
  have e1 : ((1 : Int) - 1) * EPISODES_PER_PAGE = 0 := by norm_num [EPISODES_PER_PAGE]
  have e2 : (1 : Int) * EPISODES_PER_PAGE = 50 := by norm_num [EPISODES_PER_PAGE]
  have e3 : ((3 : Int) - 1) * EPISODES_PER_PAGE = 100 := by norm_num [EPISODES_PER_PAGE]
  have e4 : (3 : Int) * EPISODES_PER_PAGE = 150 := by norm_num [EPISODES_PER_PAGE]
  constructor
  · unfold AnimePaheBackend.get_episodes
    simp only [hfind, hsort]
    rw [e1, e2, pySlice_page1 l hlen, hlen]
    rfl
  · unfold AnimePaheBackend.get_episodes
    simp only [hfind, hsort]
    rw [e3, e4, pySlice_page3 l hlen, hlen]
    rfl

/-- A concrete index record with 120 episodes numbered 1..120. -/
def animeC4 : Anime :=
  ⟨"c4", "Title", some ((List.range 120).map (fun i =>
    ⟨some (.num (PyFloat.ofInt ((i : Int) + 1))), some "", some "u", some (toString i), none⟩))⟩

/-- Its formatted episode list (already numerically sorted). -/
def sortedC4 : List FmtEp := (animeC4.episodes.getD []).map fmtEpisode

/-- Concrete instance of `get_episodes_pagination` on `animeC4`. -/
theorem get_episodes_pagination_witness :
    AnimePaheBackend.get_episodes [animeC4] "c4" 1 =
      .ok ⟨animeC4.title, sortedC4.take 50, 120, true, 1, some 2⟩ ∧
    AnimePaheBackend.get_episodes [animeC4] "c4" 3 =
      .ok ⟨animeC4.title, sortedC4.drop 100, 120, false, 3, none⟩ := by
  exact get_episodes_pagination [animeC4] "c4" animeC4 sortedC4 rfl rfl rfl

theorem pyLe_total (a b : PyFloat) : pyLe a b ∨ pyLe b a := by
  rw [pyLe_iff, pyLe_iff]
  exact le_total _ _

theorem pyLe_trans {a b c : PyFloat} (h1 : pyLe a b) (h2 : pyLe b c) : pyLe a c := by
  rw [pyLe_iff] at h1 h2 ⊢
  exact le_trans h1 h2

instance : IsTotal Episode epFloatLe := ⟨fun _ _ => pyLe_total _ _⟩

instance : IsTrans Episode epFloatLe := ⟨fun _ _ _ h1 h2 => pyLe_trans h1 h2⟩

theorem findNextAux_no_match (sess : String) :
    ∀ l : List Episode, (∀ e ∈ l, e.episode_id ≠ some sess) →
      findNextAux sess l = none := by
  intro l
  induction l with
  | nil => intro _; rfl
  | cons a t ih =>
      intro h
      cases t with
      | nil => rfl
      | cons b r =>
          unfold findNextAux
          rw [if_neg (h a (List.mem_cons_self a _))]
          exact ih (fun e he => h e (List.mem_cons_of_mem a he))

theorem findNextAux_first_match (sess : String) :
    ∀ (l : List Episode) (i : Nat) (h : i < l.length),
      (l.get ⟨i, h⟩).episode_id = some sess →
      (∀ j, j < i → ∀ hj : j < l.length, (l.get ⟨j, hj⟩).episode_id ≠ some sess) →
      findNextAux sess l = l.get? (i + 1) := by
  intro l
  induction l with
  | nil => intro i h; exact absurd h (Nat.not_lt_zero i)
  | cons a t ih =>
      intro i h hmatch hfirst
      cases i with
      | zero =>
          cases t with
          | nil => rfl
          | cons b r =>
              unfold findNextAux
              rw [if_pos (show a.episode_id = some sess from hmatch)]
              rfl
      | succ i' =>
          have ha : a.episode_id ≠ some sess :=
            show ((a :: t).get ⟨0, Nat.succ_pos _⟩).episode_id ≠ some sess from
              hfirst 0 (Nat.succ_pos i') (Nat.succ_pos _)
          cases t with
          | nil =>
              exact absurd h (by simp)
          | cons b r =>
              unfold findNextAux
              rw [if_neg ha]
              have h' : i' < (b :: r).length := Nat.lt_of_succ_lt_succ h
              exact ih i' h' hmatch
                (fun j hj hjlen => hfirst (j + 1) (Nat.succ_lt_succ hj) (Nat.succ_lt_succ hjlen))

/-- C8: `get_next_episode` scans the episodes of the matching anime in
the order produced by the guarded numeric sort (`float` keys; any
failing key conversion leaves the order unchanged, and the call never
raises) and returns the element following the first one whose
`episode_id` equals the requested session, or `none` when no episode
matches or the first match is last. -/
theorem get_next_episode_spec :
    ∀ (store : List Anime) (aid sess : String),
      (get_anime_by_id store aid = none → (get_next_episode store aid sess).1 = none) ∧
      (∀ a, get_anime_by_id store aid = some a →
        (a.episodes = none → (get_next_episode store aid sess).1 = none) ∧
        (∀ eps, a.episodes = some eps →
          ((∀ e ∈ eps, (floatNumberKey e).isSome = true) →
              (sortEpisodesByNumber eps).Sorted epFloatLe ∧
              (sortEpisodesByNumber eps).Perm eps) ∧
          ((∃ e ∈ eps, floatNumberKey e = none) → sortEpisodesByNumber eps = eps) ∧
          ((∀ e ∈ sortEpisodesByNumber eps, e.episode_id ≠ some sess) →
              (get_next_episode store aid sess).1 = none) ∧
          (∀ i, ∀ h : i < (sortEpisodesByNumber eps).length,
              ((sortEpisodesByNumber eps).get ⟨i, h⟩).episode_id = some sess →
              (∀ j, j < i → ∀ hj : j < (sortEpisodesByNumber eps).length,
                ((sortEpisodesByNumber eps).get ⟨j, hj⟩).episode_id ≠ some sess) →
              (get_next_episode store aid sess).1 =
                (sortEpisodesByNumber eps).get? (i + 1)))) := by
  intro store aid sess
  constructor
  · intro h
    unfold get_next_episode
    simp only [h]
  · intro a ha
    constructor
    · intro hep
      unfold get_next_episode
      simp only [ha, hep]
    · intro eps heps
      have hfst : (get_next_episode store aid sess).1 =
          findNextAux sess (sortEpisodesByNumber eps) := by
        unfold get_next_episode
        simp only [ha, heps]
      refine ⟨?_, ?_, ?_, ?_⟩
      · intro hall
        have hall' : eps.all (fun e => (floatNumberKey e).isSome) = true :=
          List.all_eq_true.mpr hall
        unfold sortEpisodesByNumber
        rw [if_pos hall']
        exact ⟨List.sorted_insertionSort epFloatLe eps, List.perm_insertionSort epFloatLe eps⟩
      · intro ⟨e, he, hkey⟩
        have : ¬ (eps.all (fun e => (floatNumberKey e).isSome) = true) := by
          intro hall
          have := List.all_eq_true.mp hall e he
          rw [hkey] at this
          exact absurd this (by simp)
        unfold sortEpisodesByNumber
        rw [if_neg this]
      · intro hnone
        rw [hfst]
        exact findNextAux_no_match sess _ hnone
      · intro i h hmatch hfirst
        rw [hfst]
        exact findNextAux_first_match sess _ i h hmatch hfirst

/-- Concrete instance of `get_next_episode_spec`: in a store whose
episodes are listed as numbers 3,1,2, the successor of session `"s1"`
after the numeric sort is the episode numbered 2. -/
theorem get_next_episode_witness :
    (get_next_episode
      [⟨"a", "T", some
        [⟨some (.num (PyFloat.ofInt 3)), some "", none, some "s3", none⟩,
         ⟨some (.num (PyFloat.ofInt 1)), some "", none, some "s1", none⟩,
         ⟨some (.num (PyFloat.ofInt 2)), some "", none, some "s2", none⟩]⟩]
      "a" "s1").1 = some ⟨some (.num (PyFloat.ofInt 2)), some "", none, some "s2", none⟩ := by
  have h := (get_next_episode_spec
    [⟨"a", "T", some
      [⟨some (.num (PyFloat.ofInt 3)), some "", none, some "s3", none⟩,
       ⟨some (.num (PyFloat.ofInt 1)), some "", none, some "s1", none⟩,
       ⟨some (.num (PyFloat.ofInt 2)), some "", none, some "s2", none⟩]⟩]
    "a" "s1").2 _ rfl
  have h2 := (h.2 _ rfl).2.2.2 0 (by decide) (by decide)
    (fun j hj hjlen => absurd hj (Nat.not_lt_zero j))
  rw [h2]
  decide

theorem sortEpisodesByNumber_perm (l : List Episode) : (sortEpisodesByNumber l).Perm l := by
  unfold sortEpisodesByNumber
  by_cases h : l.all (fun e => (floatNumberKey e).isSome) = true
  · rw [if_pos h]
    exact List.perm_insertionSort epFloatLe l
  · rw [if_neg h]

/-- Relation between a stored record and what it may become across a
`get_next_episode` call: identity and title intact, episode multiset
intact (only the order may change). -/
def RecordReordered (a a' : Anime) : Prop :=
  a'.id = a.id ∧ a'.title = a.title ∧
    ((a.episodes = none ∧ a'.episodes = none) ∨
      (∃ l l', a.episodes = some l ∧ a'.episodes = some l' ∧ l'.Perm l))

theorem recordReordered_self (a : Anime) : RecordReordered a a := by
  refine ⟨rfl, rfl, ?_⟩
  rcases h : a.episodes with _ | l
  · exact Or.inl ⟨rfl, rfl⟩
  · exact Or.inr ⟨l, l, rfl, rfl, List.Perm.refl l⟩

theorem recordReordered_sorted (a : Anime) :
    RecordReordered a { a with episodes := a.episodes.map sortEpisodesByNumber } := by
  refine ⟨rfl, rfl, ?_⟩
  rcases h : a.episodes with _ | l
  · exact Or.inl ⟨rfl, by simp [h]⟩
  · exact Or.inr ⟨l, sortEpisodesByNumber l, rfl, by simp [h], sortEpisodesByNumber_perm l⟩

theorem forall₂_updateFirst (p : Anime → Bool) (f : Anime → Anime)
    (hf : ∀ a, RecordReordered a (f a)) :
    ∀ store : List Anime, List.Forall₂ RecordReordered store (updateFirst p f store) := by
  intro store
  induction store with
  | nil => exact List.Forall₂.nil
  | cons a rest ih =>
      unfold updateFirst
      by_cases hp : p a = true
      · rw [if_pos hp]
        exact List.Forall₂.cons (hf a)
          ((List.forall₂_same).mpr (fun x _ => recordReordered_self x))
      · rw [if_neg hp]
        exact List.Forall₂.cons (recordReordered_self a) ih

/-- C2 (amended): `get_next_episode` is the only index operation with an
effect, and its effect is bounded: every record in the store keeps its
id, its title and the multiset of its episode records — only the order
of the matched anime's episode list may change (Python's in-place
`episodes.sort`).  The search, episode-lookup and episode-list
operations are embedded as pure functions of the store and return no
updated store at all. -/
theorem index_records_only_reordered :
    ∀ (store : List Anime) (aid sess : String),
      List.Forall₂ RecordReordered store (get_next_episode store aid sess).2 := by
  intro store aid sess
  unfold get_next_episode
  rcases hfind : get_anime_by_id store aid with _ | a
  · simp only [hfind]
    exact (List.forall₂_same).mpr (fun x _ => recordReordered_self x)
  · rcases hep : a.episodes with _ | eps
    · simp only [hfind, hep]
      exact (List.forall₂_same).mpr (fun x _ => recordReordered_self x)
    · simp only [hfind, hep]
      exact forall₂_updateFirst _ _ recordReordered_sorted store

/-- Concrete instance of `index_records_only_reordered`. -/
theorem index_records_only_reordered_witness :
    List.Forall₂ RecordReordered
      [⟨"a", "T", some
        [⟨some (.num (PyFloat.ofInt 2)), some "", none, some "s2", none⟩,
         ⟨some (.num (PyFloat.ofInt 1)), some "", none, some "s1", none⟩]⟩]
      (get_next_episode
        [⟨"a", "T", some
          [⟨some (.num (PyFloat.ofInt 2)), some "", none, some "s2", none⟩,
           ⟨some (.num (PyFloat.ofInt 1)), some "", none, some "s1", none⟩]⟩]
        "a" "zzz").2 :=
  index_records_only_reordered _ "a" "zzz"

/-- Counterexample to C2 as stated: `get_next_episode` sorts the stored
episode list in place, so a store holding episodes in the order 2,1
comes back reordered (the loaded records are mutated). -/
theorem get_next_episode_mutates_store :
    (get_next_episode
      [⟨"a", "T", some
        [⟨some (.num (PyFloat.ofInt 2)), some "", none, some "s2", none⟩,
         ⟨some (.num (PyFloat.ofInt 1)), some "", none, some "s1", none⟩]⟩]
      "a" "zzz").2 ≠
      [⟨"a", "T", some
        [⟨some (.num (PyFloat.ofInt 2)), some "", none, some "s2", none⟩,
         ⟨some (.num (PyFloat.ofInt 1)), some "", none, some "s1", none⟩]⟩] := by
  decide

/-- The priority formula of `flexible_search`, as a function of the
record: `exact -> 100`, else `starts_with -> 80 + similarity*10`, else
`contains -> 60 + similarity*10`, else `similarity*50`. -/
def candPriority (ctx : SearchCtx) (query : String) (anime : Anime) : PyFloat :=
  if ctx.normalize_text query = ctx.normalize_text anime.title then PyFloat.ofInt 100
  else if strStartsWith (ctx.normalize_text anime.title) (ctx.normalize_text query) = true then
    pyAdd (PyFloat.ofInt 80) (pyMul (ctx.similarity_score query anime.title) (PyFloat.ofInt 10))
  else if strContains (ctx.normalize_text anime.title) (ctx.normalize_text query) = true then
    pyAdd (PyFloat.ofInt 60) (pyMul (ctx.similarity_score query anime.title) (PyFloat.ofInt 10))
  else pyMul (ctx.similarity_score query anime.title) (PyFloat.ofInt 50)

/-- The `match_type` label of a kept candidate. -/
def candMatchType (ctx : SearchCtx) (query : String) (anime : Anime) : String :=
  if ctx.normalize_text query = ctx.normalize_text anime.title then "exact"
  else if strStartsWith (ctx.normalize_text anime.title) (ctx.normalize_text query) = true then
    "starts_with"
  else if strContains (ctx.normalize_text anime.title) (ctx.normalize_text query) = true then
    "contains"
  else "similar"

/-- The keep filter of `flexible_search`:
`priority > 20 or contains or starts_with`. -/
def KeptCond (ctx : SearchCtx) (query : String) (anime : Anime) : Prop :=
  pyLt (PyFloat.ofInt 20) (candPriority ctx query anime) ∨
    strContains (ctx.normalize_text anime.title) (ctx.normalize_text query) = true ∨
    strStartsWith (ctx.normalize_text anime.title) (ctx.normalize_text query) = true

instance (ctx : SearchCtx) (query : String) (anime : Anime) :
    Decidable (KeptCond ctx query anime) := by
  unfold KeptCond
  infer_instance

theorem search_candidate_unfold (ctx : SearchCtx) (query : String) (anime : Anime) :
    search_candidate ctx query anime =
      if KeptCond ctx query anime then
        some ⟨anime, candPriority ctx query anime, candMatchType ctx query anime⟩
      else none := by
  unfold search_candidate candPriority candMatchType KeptCond
  rfl

theorem search_candidate_anime (ctx : SearchCtx) (query : String) (a : Anime)
    (r : SearchResult) (h : search_candidate ctx query a = some r) : r.anime = a := by
  rw [search_candidate_unfold] at h
  by_cases hk : KeptCond ctx query a
  · rw [if_pos hk] at h
    cases h
    rfl
  · rw [if_neg hk] at h
    cases h

theorem candidate_priority_bound (ctx : SearchCtx) (query : String) (a : Anime)
    (hsim : ∀ q s, pyLe (PyFloat.ofInt 0) (ctx.similarity_score q s) ∧
      pyLe (ctx.similarity_score q s) (PyFloat.ofInt 1)) :
    (candPriority ctx query a).toRat ≤ 100 ∧
      (100 ≤ (candPriority ctx query a).toRat →
        candPriority ctx query a = PyFloat.ofInt 100 ∧
          candMatchType ctx query a = "exact") := by
  have hs0 : (0 : Rat) ≤ (ctx.similarity_score query a.title).toRat := by
    have := (hsim query a.title).1
    rw [pyLe_iff, pyOfInt_toRat] at this
    exact_mod_cast this
  have hs1 : (ctx.similarity_score query a.title).toRat ≤ 1 := by
    have := (hsim query a.title).2
    rw [pyLe_iff, pyOfInt_toRat] at this
    exact_mod_cast this
  unfold candPriority candMatchType
  by_cases h1 : ctx.normalize_text query = ctx.normalize_text a.title
  · rw [if_pos h1, if_pos h1]
    rw [pyOfInt_toRat]
    norm_num
  · rw [if_neg h1, if_neg h1]
    by_cases h2 : strStartsWith (ctx.normalize_text a.title) (ctx.normalize_text query) = true
    · rw [if_pos h2, if_pos h2]
      have hval : (pyAdd (PyFloat.ofInt 80)
          (pyMul (ctx.similarity_score query a.title) (PyFloat.ofInt 10))).toRat =
          80 + (ctx.similarity_score query a.title).toRat * 10 := by
        rw [pyAdd_toRat, pyMul_toRat, pyOfInt_toRat, pyOfInt_toRat]
        norm_num
      rw [hval]
      constructor
      · linarith
      · intro hge
        linarith
    · rw [if_neg h2, if_neg h2]
      by_cases h3 : strContains (ctx.normalize_text a.title) (ctx.normalize_text query) = true
      · rw [if_pos h3, if_pos h3]
        have hval : (pyAdd (PyFloat.ofInt 60)
            (pyMul (ctx.similarity_score query a.title) (PyFloat.ofInt 10))).toRat =
            60 + (ctx.similarity_score query a.title).toRat * 10 := by
          rw [pyAdd_toRat, pyMul_toRat, pyOfInt_toRat, pyOfInt_toRat]
          norm_num
        rw [hval]
        constructor
        · linarith
        · intro hge
          linarith
      · rw [if_neg h3, if_neg h3]
        have hval : (pyMul (ctx.similarity_score query a.title) (PyFloat.ofInt 50)).toRat =
            (ctx.similarity_score query a.title).toRat * 50 := by
          rw [pyMul_toRat, pyOfInt_toRat]
          norm_num
        rw [hval]
        constructor
        · linarith
        · intro hge
          linarith

theorem searchSortLe_iff (x y : SearchResult) :
    searchSortLe x y ↔
      (y.priority.toRat < x.priority.toRat ∨
        (x.priority.toRat = y.priority.toRat ∧ strLe x.anime.title y.anime.title)) := by
  unfold searchSortLe
  rw [pyLt_iff, pyEquiv_iff, pyNeg_toRat, pyNeg_toRat]
  constructor
  · intro h
    rcases h with h | ⟨h1, h2⟩
    · left; linarith
    · right; exact ⟨by linarith, h2⟩
  · intro h
    rcases h with h | ⟨h1, h2⟩
    · left; linarith
    · right; exact ⟨by linarith, h2⟩

instance : IsTotal SearchResult searchSortLe := by
  refine ⟨fun x y => ?_⟩
  rw [searchSortLe_iff, searchSortLe_iff]
  rcases lt_trichotomy x.priority.toRat y.priority.toRat with h | h | h
  · right; left; exact h
  · rcases strLe_total x.anime.title y.anime.title with hs | hs
    · left; right; exact ⟨h, hs⟩
    · right; right; exact ⟨h.symm, hs⟩
  · left; left; exact h

instance : IsTrans SearchResult searchSortLe := by
  refine ⟨fun x y z hxy hyz => ?_⟩
  rw [searchSortLe_iff] at hxy hyz ⊢
  rcases hxy with h1 | ⟨h1, h1'⟩
  · rcases hyz with h2 | ⟨h2, _⟩
    · left; linarith
    · left; linarith
  · rcases hyz with h2 | ⟨h2, h2'⟩
    · left; linarith
    · right; exact ⟨h1.trans h2, strLe_trans h1' h2'⟩

/-- C1 (amended): for a non-empty query, every returned entry's priority
is exactly the claimed formula (via `candPriority`), membership in the
returned list implies the keep condition
`priority > 20 or contains or starts_with`, and the converse holds
whenever at most `limit` candidates are kept — the returned list is the
kept candidates sorted and truncated to `limit`, so beyond-`limit`
candidates satisfying the condition are cut off (and an empty query
returns nothing at all). -/
theorem flexible_search_membership :
    ∀ (ctx : SearchCtx) (all_anime : List Anime) (query : String) (limit : Nat),
      query ≠ "" →
      (∀ r ∈ flexible_search ctx all_anime query limit,
        r.priority = candPriority ctx query r.anime ∧
          r.match_type = candMatchType ctx query r.anime) ∧
      (∀ a ∈ all_anime,
        ((∃ r ∈ flexible_search ctx all_anime query limit, r.anime = a) →
          KeptCond ctx query a) ∧
        (KeptCond ctx query a →
          (all_anime.filterMap (search_candidate ctx query)).length ≤ limit →
          ∃ r ∈ flexible_search ctx all_anime query limit, r.anime = a)) := by
  intro ctx all_anime query limit hq
  by_cases hcat : all_anime = []
  · subst hcat
    constructor
    · intro r hr
      simp [flexible_search] at hr
    · intro a ha
      simp at ha
  · have hres : flexible_search ctx all_anime query limit =
        ((all_anime.filterMap (search_candidate ctx query)).insertionSort
          searchSortLe).take limit := by
      unfold flexible_search
      rw [if_neg (by push_neg; exact ⟨hq, hcat⟩)]
    have hmem_kept : ∀ r, r ∈ flexible_search ctx all_anime query limit →
        r ∈ all_anime.filterMap (search_candidate ctx query) := by
      intro r hr
      rw [hres] at hr
      have h1 := List.take_subset limit _ hr
      exact (List.perm_insertionSort searchSortLe _).mem_iff.mp h1
    constructor
    · intro r hr
      obtain ⟨a, ha, hc⟩ := List.mem_filterMap.mp (hmem_kept r hr)
      have hanime := search_candidate_anime ctx query a r hc
      rw [search_candidate_unfold] at hc
      by_cases hk : KeptCond ctx query a
      · rw [if_pos hk] at hc
        cases hc
        exact ⟨by rw [hanime], by rw [hanime]⟩
      · rw [if_neg hk] at hc
        cases hc
    · intro a ha
      constructor
      · intro ⟨r, hr, hra⟩
        obtain ⟨a', ha', hc⟩ := List.mem_filterMap.mp (hmem_kept r hr)
        have hanime := search_candidate_anime ctx query a' r hc
        rw [hanime] at hra
        subst hra
        rw [search_candidate_unfold] at hc
        by_cases hk : KeptCond ctx query a'
        · exact hk
        · rw [if_neg hk] at hc
          cases hc
      · intro hk hlen
        have hc : search_candidate ctx query a =
            some ⟨a, candPriority ctx query a, candMatchType ctx query a⟩ := by
          rw [search_candidate_unfold, if_pos hk]
        have hkept : (⟨a, candPriority ctx query a, candMatchType ctx query a⟩ : SearchResult) ∈
            all_anime.filterMap (search_candidate ctx query) :=
          List.mem_filterMap.mpr ⟨a, ha, hc⟩
        have hsorted : (⟨a, candPriority ctx query a, candMatchType ctx query a⟩ : SearchResult) ∈
            (all_anime.filterMap (search_candidate ctx query)).insertionSort searchSortLe :=
          (List.perm_insertionSort searchSortLe _).mem_iff.mpr hkept
        have hfull : ((all_anime.filterMap (search_candidate ctx query)).insertionSort
            searchSortLe).take limit =
            (all_anime.filterMap (search_candidate ctx query)).insertionSort searchSortLe := by
          apply List.take_of_length_le
          rw [(List.perm_insertionSort searchSortLe _).length_eq]
          exact hlen
        rw [hres, hfull]
        exact ⟨_, hsorted, rfl⟩

/-- Search context for the C1 instances: identity normalization and the
constant similarity 0 (a trivially valid sequence-alignment ratio). -/
def ctxC1 : SearchCtx := ⟨fun s => s, fun _ _ => PyFloat.ofInt 0⟩

/-- Record "ab" of the C1 instances. -/
def animeAb : Anime := ⟨"1", "ab", none⟩

/-- Record "ac" of the C1 instances. -/
def animeAc : Anime := ⟨"2", "ac", none⟩

/-- Counterexample to C1 as stated: with catalog `["ab", "ac"]`, query
`"a"` and `limit = 1`, the record `"ac"` satisfies the keep condition
(it is a `starts_with` match) yet does not appear in the result — the
claimed "appears in the result if and only if" ignores the `limit`
truncation. -/
theorem flexible_search_membership_counterexample :
    KeptCond ctxC1 "a" animeAc ∧
    (∀ r ∈ flexible_search ctxC1 [animeAb, animeAc] "a" 1, r.anime ≠ animeAc) := by
  constructor
  · decide
  · decide

/-- Concrete instance of `flexible_search_membership`: with a single
matching record and a roomy limit, the kept record does appear. -/
theorem flexible_search_membership_witness :
    ∃ r ∈ flexible_search ctxC1 [animeAb] "a" 20, r.anime = animeAb := by
  have h := flexible_search_membership ctxC1 [animeAb] "a" 20 (by decide)
  exact (h.2 animeAb (by decide)).2 (by decide) (by decide)

/-- C3 (amended): for every catalog entry `t` with a non-empty title,
and similarity values in `[0,1]` (as `difflib` ratios are),
`flexible_search(t.title)` with a positive limit returns at rank 0 a
result classified `exact` with priority exactly 100.  (The record at
rank 0 need not be `t` itself when another record has the same
normalized title; and an entry with an empty title is never returned,
because an empty query short-circuits to `[]`.) -/
theorem flexible_search_exact_first :
    ∀ (ctx : SearchCtx) (all_anime : List Anime) (limit : Nat) (t : Anime),
      t ∈ all_anime → t.title ≠ "" → 0 < limit →
      (∀ q s, pyLe (PyFloat.ofInt 0) (ctx.similarity_score q s) ∧
        pyLe (ctx.similarity_score q s) (PyFloat.ofInt 1)) →
      ∃ r, (flexible_search ctx all_anime t.title limit).head? = some r ∧
        r.priority = PyFloat.ofInt 100 ∧ r.match_type = "exact" := by
  intro ctx all_anime limit t ht htitle hlim hsim
  have hcat : all_anime ≠ [] := by
    intro h
    rw [h] at ht
    cases ht
  have hres : flexible_search ctx all_anime t.title limit =
      ((all_anime.filterMap (search_candidate ctx t.title)).insertionSort
        searchSortLe).take limit := by
    unfold flexible_search
    rw [if_neg (by push_neg; exact ⟨htitle, hcat⟩)]
  have hkt : KeptCond ctx t.title t := by
    left
    unfold candPriority
    rw [if_pos rfl]
    rw [pyLt_iff, pyOfInt_toRat, pyOfInt_toRat]
    norm_num
  have hpt : candPriority ctx t.title t = PyFloat.ofInt 100 := by
    unfold candPriority
    rw [if_pos rfl]
  have hct : search_candidate ctx t.title t =
      some ⟨t, PyFloat.ofInt 100, candMatchType ctx t.title t⟩ := by
    rw [search_candidate_unfold, if_pos hkt, hpt]
  have hmt : candMatchType ctx t.title t = "exact" := by
    unfold candMatchType
    rw [if_pos rfl]
  have hmem : (⟨t, PyFloat.ofInt 100, candMatchType ctx t.title t⟩ : SearchResult) ∈
      all_anime.filterMap (search_candidate ctx t.title) :=
    List.mem_filterMap.mpr ⟨t, ht, hct⟩
  have hmem' : (⟨t, PyFloat.ofInt 100, candMatchType ctx t.title t⟩ : SearchResult) ∈
      (all_anime.filterMap (search_candidate ctx t.title)).insertionSort searchSortLe :=
    (List.perm_insertionSort searchSortLe _).mem_iff.mpr hmem
  rcases hsort : (all_anime.filterMap (search_candidate ctx t.title)).insertionSort
      searchSortLe with _ | ⟨h0, rest⟩
  · rw [hsort] at hmem'
    cases hmem'
  · have hhead : (flexible_search ctx all_anime t.title limit).head? = some h0 := by
      rw [hres, hsort, List.head?_take, if_neg (Nat.pos_iff_ne_zero.mp hlim)]
      rfl
    refine ⟨h0, hhead, ?_⟩
    have hh0kept : h0 ∈ all_anime.filterMap (search_candidate ctx t.title) := by
      apply (List.perm_insertionSort searchSortLe _).mem_iff.mp
      rw [hsort]
      exact List.mem_cons_self h0 rest
    obtain ⟨a0, _, hc0⟩ := List.mem_filterMap.mp hh0kept
    have hanime0 := search_candidate_anime ctx t.title a0 h0 hc0
    rw [search_candidate_unfold] at hc0
    by_cases hk0 : KeptCond ctx t.title a0
    · rw [if_pos hk0] at hc0
      have hbound := candidate_priority_bound ctx t.title a0 hsim
      have hfields : h0.priority = candPriority ctx t.title a0 ∧
          h0.match_type = candMatchType ctx t.title a0 := by
        cases hc0
        exact ⟨rfl, rfl⟩
      have hge : 100 ≤ (candPriority ctx t.title a0).toRat := by
        rw [hsort] at hmem'
        rcases List.mem_cons.mp hmem' with heq | hrest
        · have : h0.priority = PyFloat.ofInt 100 := by rw [← heq]
          rw [hfields.1] at this
          rw [this, pyOfInt_toRat]
          norm_num
        · have hs := List.sorted_insertionSort searchSortLe
            (all_anime.filterMap (search_candidate ctx t.title))
          rw [hsort] at hs
          have hrel := List.rel_of_sorted_cons hs _ hrest
          rw [searchSortLe_iff] at hrel
          rcases hrel with hlt | ⟨heq, _⟩
          · rw [← hfields.1]
            have h100 : (PyFloat.ofInt 100).toRat = 100 := by
              rw [pyOfInt_toRat]; norm_num
            simp only [h100] at hlt
            linarith
          · rw [← hfields.1, heq, pyOfInt_toRat]
            norm_num
      obtain ⟨hp100, hm100⟩ := hbound.2 hge
      exact ⟨by rw [hfields.1, hp100], by rw [hfields.2, hm100]⟩
    · rw [if_neg hk0] at hc0
      cases hc0

/-- Search context for the C3 instances. -/
def ctxC3 : SearchCtx := ⟨fun s => s, fun _ _ => PyFloat.ofInt 0⟩

/-- A catalog record with an empty title. -/
def animeEmptyTitle : Anime := ⟨"e", "", none⟩

/-- Counterexample to C3 as stated: for a catalog entry with an empty
title, searching for its title returns the empty list (the empty query
short-circuits), so the entry is not returned at rank 0 at all. -/
theorem flexible_search_exact_first_counterexample :
    animeEmptyTitle ∈ [animeEmptyTitle] ∧
    flexible_search ctxC3 [animeEmptyTitle] animeEmptyTitle.title 20 = [] := by
  constructor
  · decide
  · decide

/-- A record with a non-empty title for the C3 witness. -/
def animeW3 : Anime := ⟨"w", "ab", none⟩

/-- Concrete instance of `flexible_search_exact_first`. -/
theorem flexible_search_exact_first_witness :
    ∃ r, (flexible_search ctxC3 [animeW3] animeW3.title 20).head? = some r ∧
      r.priority = PyFloat.ofInt 100 ∧ r.match_type = "exact" :=
  flexible_search_exact_first ctxC3 [animeW3] 20 animeW3 (by decide) (by decide) (by decide)
    (fun q s =>
      ⟨show pyLe (PyFloat.ofInt 0) (PyFloat.ofInt 0) by decide,
       show pyLe (PyFloat.ofInt 0) (PyFloat.ofInt 1) by decide⟩)
